import Mathlib

/-!
Shallow embedding of the core extraction and template engines of the
nike-export-app repository (`src/core/pdf_processor_nike.py`,
`src/core/pdf_processor.py`, `src/core/template_manager_nike.py`,
`src/core/template_manager.py`), together with theorems settling the
frozen specification claims.

Conventions of the embedding:
* Python strings are Lean `String`s restricted to their ASCII behaviour
  (all string data handled by this program is ASCII).
* Python regular-expression applications are translated into explicit
  Lean scanning functions with the exact matching semantics of the
  concrete pattern being modelled (leftmost match, greediness where it
  matters); each such function documents the pattern it implements.
* External providers (pdfplumber pages, openpyxl workbooks) are modelled
  by explicit data: a page is the tuple of per-page pattern-application
  results the parser consumes, a worksheet is a grid of optional string
  cell values.
-/

namespace NikeExport

/-- Characters matched by Python's `\s` (ASCII range) and stripped by
`str.strip()`. -/
def isPySpace (c : Char) : Bool :=
  c = ' ' || c = '\t' || c = '\n' || c = '\r' || c = '\x0b' || c = '\x0c'

/-- Word characters of Python's `\w` / `\b` (ASCII range). -/
def isWordChar (c : Char) : Bool :=
  c.isAlpha || c.isDigit || c = '_'

/-- `str.strip()` on a character list: drop leading and trailing whitespace. -/
def pyStripChars (cs : List Char) : List Char :=
  ((cs.dropWhile isPySpace).reverse.dropWhile isPySpace).reverse

/-- `str.strip()`. -/
def pyStrip (s : String) : String :=
  String.mk (pyStripChars s.data)

/-- Split a character list into its maximal runs of characters not
satisfying `sep`. -/
def splitRuns (sep : Char → Bool) (cs : List Char) : List (List Char) :=
  (cs.foldr
    (fun c acc =>
      if sep c then [] :: acc
      else
        match acc with
        | [] => [[c]]
        | w :: ws => (c :: w) :: ws)
    []).filter (fun w => !w.isEmpty)

/-- Maximal runs of non-whitespace characters (Python `str.split()`). -/
def wsWords (cs : List Char) : List (List Char) :=
  splitRuns isPySpace cs

/-- `norm` from `pdf_processor_nike.py` / `pdf_processor.py`:
`re.sub(r"\s+", " ", s.strip())`, i.e. collapse every whitespace run to a
single space and trim.  Equivalent to `" ".join(s.split())`. -/
def pyNorm (s : String) : String :=
  String.mk (List.intercalate [' '] (wsWords s.data))

/-- Fuel-indexed worker for `strReplaceChars` (structural recursion on
the fuel so that concrete inputs evaluate inside the kernel; with
`fuel ≥ cs.length` the fuel never runs out, since every step consumes at
least one character). -/
def strReplaceAux (pat rep : List Char) : Nat → List Char → List Char
  | _, [] => []
  | 0, cs => cs
  | fuel + 1, c :: cs =>
    if !pat.isEmpty && pat.isPrefixOf (c :: cs) then
      rep ++ strReplaceAux pat rep fuel ((c :: cs).drop pat.length)
    else
      c :: strReplaceAux pat rep fuel cs

/-- One left-to-right pass of Python `str.replace(pat, rep)` over a
character list (all non-overlapping occurrences). -/
def strReplaceChars (pat rep cs : List Char) : List Char :=
  strReplaceAux pat rep cs.length cs

/-- Python `str.replace` (for a non-empty pattern, which is the only use
in this code base). -/
def strReplace (s pat rep : String) : String :=
  String.mk (strReplaceChars pat.data rep.data s.data)

/-- `str.lower()` (ASCII). -/
def pyLower (s : String) : String :=
  String.mk (s.data.map Char.toLower)

/-- `str.upper()` (ASCII). -/
def pyUpper (s : String) : String :=
  String.mk (s.data.map Char.toUpper)

/-- Substring containment, Python's `needle in haystack`. -/
def strContains (haystack needle : String) : Bool :=
  (List.range (haystack.data.length + 1)).any
    (fun i => needle.data.isPrefixOf (haystack.data.drop i))

/-- Index of the first occurrence of `needle` in `haystack`, if any
(used to model `str.split(sep, 1)[0]`). -/
def strFindIndex (haystack needle : String) : Option Nat :=
  (List.range (haystack.data.length + 1)).find?
    (fun i => needle.data.isPrefixOf (haystack.data.drop i))

/-! ### `to_dmy` — the date normalizer of `pdf_processor_nike.py` (and the
identical copy in `pdf_processor.py`), a model of the
`datetime.strptime` calls it makes. -/

/-- Leap-year rule used by `datetime`. -/
def isLeapYear (y : Nat) : Bool :=
  y % 4 = 0 && (y % 100 ≠ 0 || y % 400 = 0)

/-- Days in a month, as validated by `datetime(year, month, day)`. -/
def daysInMonth (y m : Nat) : Nat :=
  if m = 2 then (if isLeapYear y then 29 else 28)
  else if m = 4 || m = 6 || m = 9 || m = 11 then 30
  else 31

/-- Numeric value of a decimal digit character. -/
def digitVal (c : Char) : Nat := c.toNat - '0'.toNat

/-- Candidates for `strptime`'s `%d` directive (regex
`3[01]|[12]\d|0[1-9]|[1-9]`), in alternation order: the two-digit
reading first, then the one-digit reading, each with the remaining
input. -/
def dayCands : List Char → List (Nat × List Char)
  | d1 :: d2 :: rest =>
    (if (d1 = '3' && (d2 = '0' || d2 = '1'))
        || ((d1 = '1' || d1 = '2') && d2.isDigit)
        || (d1 = '0' && d2.isDigit && d2 ≠ '0') then
      [(digitVal d1 * 10 + digitVal d2, rest)]
    else []) ++
    (if d1.isDigit && d1 ≠ '0' then [(digitVal d1, d2 :: rest)] else [])
  | [d1] => if d1.isDigit && d1 ≠ '0' then [(digitVal d1, [])] else []
  | [] => []

/-- Candidates for `strptime`'s `%m` directive (regex
`1[0-2]|0[1-9]|[1-9]`), in alternation order. -/
def monthCands : List Char → List (Nat × List Char)
  | d1 :: d2 :: rest =>
    (if (d1 = '1' && (d2 = '0' || d2 = '1' || d2 = '2'))
        || (d1 = '0' && d2.isDigit && d2 ≠ '0') then
      [(digitVal d1 * 10 + digitVal d2, rest)]
    else []) ++
    (if d1.isDigit && d1 ≠ '0' then [(digitVal d1, d2 :: rest)] else [])
  | [d1] => if d1.isDigit && d1 ≠ '0' then [(digitVal d1, [])] else []
  | [] => []

/-- `strptime`'s `%Y` directive: exactly four decimal digits. -/
def parseYear4 : List Char → Option (Nat × List Char)
  | a :: b :: c :: d :: rest =>
    if a.isDigit && b.isDigit && c.isDigit && d.isDigit then
      some (digitVal a * 1000 + digitVal b * 100 + digitVal c * 10 + digitVal d, rest)
    else none
  | _ => none

/-- `datetime(year, month, day)` construction succeeds. -/
def validDate (d m y : Nat) : Bool :=
  1 ≤ y && y ≤ 9999 && 1 ≤ m && m ≤ 12 && 1 ≤ d && d ≤ daysInMonth y m

/-- `strptime(s, "%d<sep>%m<sep>%Y")` followed by `datetime` validation.
The whole input must be consumed. -/
def parseDMY (sep : Char) (cs : List Char) : Option (Nat × Nat × Nat) :=
  (dayCands cs).findSome? fun dc =>
    match dc.2 with
    | c1 :: r1 =>
      if c1 = sep then
        (monthCands r1).findSome? fun mc =>
          match mc.2 with
          | c2 :: r2 =>
            if c2 = sep then
              (parseYear4 r2).bind fun yc =>
                if yc.2 = [] && validDate dc.1 mc.1 yc.1 then
                  some (dc.1, mc.1, yc.1)
                else none
            else none
          | [] => none
      else none
    | [] => none

/-- English month abbreviations recognised by `%b`. -/
def monthAbbrevs : List (String × Nat) :=
  [("jan", 1), ("feb", 2), ("mar", 3), ("apr", 4), ("may", 5), ("jun", 6),
   ("jul", 7), ("aug", 8), ("sep", 9), ("oct", 10), ("nov", 11), ("dec", 12)]

/-- English full month names recognised by `%B`. -/
def monthFulls : List (String × Nat) :=
  [("january", 1), ("february", 2), ("march", 3), ("april", 4), ("may", 5),
   ("june", 6), ("july", 7), ("august", 8), ("september", 9), ("october", 10),
   ("november", 11), ("december", 12)]

/-- Case-insensitive prefix match of a month name, returning the month
number and the remaining input (no month name is a prefix of another, so
the first hit is the only one). -/
def parseMonthName (names : List (String × Nat)) (cs : List Char) :
    Option (Nat × List Char) :=
  names.findSome? fun nm =>
    if (nm.1.data).isPrefixOf (cs.map Char.toLower) then
      some (nm.2, cs.drop nm.1.data.length)
    else none

/-- At least one whitespace character (`strptime` turns a space in the
format string into `\s+`). -/
def parseWs1 (cs : List Char) : Option (List Char) :=
  match cs with
  | c :: rest => if isPySpace c then some (rest.dropWhile isPySpace) else none
  | [] => none

/-- `strptime(s, "%b %d, %Y")` / `strptime(s, "%B %d, %Y")` followed by
`datetime` validation.  Format: month name, whitespace, day, a literal
comma, whitespace, four-digit year; the whole input must be consumed. -/
def parseBdY (names : List (String × Nat)) (cs : List Char) :
    Option (Nat × Nat × Nat) :=
  (parseMonthName names cs).bind fun mc =>
    (parseWs1 mc.2).bind fun r1 =>
      (dayCands r1).findSome? fun dc =>
        match dc.2 with
        | ',' :: r2 =>
          (parseWs1 r2).bind fun r3 =>
            (parseYear4 r3).bind fun yc =>
              if yc.2 = [] && validDate dc.1 mc.1 yc.1 then
                some (dc.1, mc.1, yc.1)
              else none
        | _ => none

/-- Zero-pad a number to two digits (`f"{n:02d}"`). -/
def pad2 (n : Nat) : String :=
  if n < 10 then "0" ++ toString n else toString n

/-- Format the parsed date as the code's f-string
`f"{dt.day:02d}/{dt.month:02d}/{dt.year}"`. -/
def fmtDMY (dmy : Nat × Nat × Nat) : String :=
  pad2 dmy.1 ++ "/" ++ pad2 dmy.2.1 ++ "/" ++ toString dmy.2.2

/-- `to_dmy` from `pdf_processor_nike.py` (identical in
`pdf_processor.py`): try the formats `%d/%m/%Y`, `%d-%m-%Y`,
`%b %d, %Y`, `%B %d, %Y` on the stripped input, then retry `%B %d, %Y`
after collapsing double spaces and space-comma; on total failure return
the input unchanged. -/
def to_dmy (s : String) : String :=
  if s = "" then ""
  else
    let cs := pyStripChars s.data
    match parseDMY '/' cs with
    | some r => fmtDMY r
    | none =>
      match parseDMY '-' cs with
      | some r => fmtDMY r
      | none =>
        match parseBdY monthAbbrevs cs with
        | some r => fmtDMY r
        | none =>
          match parseBdY monthFulls cs with
          | some r => fmtDMY r
          | none =>
            let s2 := pyStripChars
              (strReplaceChars [' ', ','] [','] (strReplaceChars [' ', ' '] [' '] s.data))
            match parseBdY monthFulls s2 with
            | some r => fmtDMY r
            | none => s

/-! ### `group_lines` — the Line Grouper of `pdf_processor_nike.py` -/

/-- Python's banker's rounding (`round`) on exact rationals: round half
to even.  (The source rounds binary floats; the embedding works with
exact rational coordinates.) -/
def pyRound (q : ℚ) : ℤ :=
  let f : ℤ := ⌊q + 1/2⌋
  if q + 1/2 = (f : ℚ) then (if f % 2 = 0 then f else f - 1) else f

/-- A positioned text token as consumed from `page.extract_words`:
`w["text"]`, `w["x0"]`, `w["top"]`. -/
structure Tok where
  text : String
  x0 : ℚ
  top : ℚ
deriving DecidableEq

/-- The sort key ordering of `sorted(words, key=lambda w: (round(w["top"]), w["x0"]))`. -/
def tokKeyLE (a b : Tok) : Prop :=
  pyRound a.top < pyRound b.top ∨ (pyRound a.top = pyRound b.top ∧ a.x0 ≤ b.x0)

instance : DecidableRel tokKeyLE := fun a b => by
  unfold tokKeyLE; infer_instance

instance : IsTotal Tok tokKeyLE where
  total a b := by
    unfold tokKeyLE
    rcases lt_trichotomy (pyRound a.top) (pyRound b.top) with h | h | h
    · exact Or.inl (Or.inl h)
    · rcases le_total a.x0 b.x0 with hx | hx
      · exact Or.inl (Or.inr ⟨h, hx⟩)
      · exact Or.inr (Or.inr ⟨h.symm, hx⟩)
    · exact Or.inr (Or.inl h)

instance : IsTrans Tok tokKeyLE where
  trans a b c hab hbc := by
    unfold tokKeyLE at *
    rcases hab with h1 | ⟨h1, hx1⟩
    · rcases hbc with h2 | ⟨h2, _⟩
      · exact Or.inl (h1.trans h2)
      · exact Or.inl (h2 ▸ h1)
    · rcases hbc with h2 | ⟨h2, hx2⟩
      · exact Or.inl (h1 ▸ h2)
      · exact Or.inr ⟨h1.trans h2, hx1.trans hx2⟩

/-- The ordering of `sorted(cur, key=lambda t: t["x0"])`. -/
def tokXLE (a b : Tok) : Prop := a.x0 ≤ b.x0

instance : DecidableRel tokXLE := fun a b => by
  unfold tokXLE; infer_instance

instance : IsTotal Tok tokXLE where
  total a b := le_total a.x0 b.x0

instance : IsTrans Tok tokXLE where
  trans _ _ _ hab hbc := le_trans hab hbc

/-- `sorted(words, key=lambda w: (round(w["top"]), w["x0"]))` — a stable
sort by the lexicographic key, modelled by (stable) insertion sort. -/
def sortTokens (words : List Tok) : List Tok :=
  List.insertionSort tokKeyLE words

/-- `sorted(cur, key=lambda t: t["x0"])`. -/
def sortByX (l : List Tok) : List Tok :=
  List.insertionSort tokXLE l

/-- The accumulation loop of `group_lines`: `cur` is the open bucket,
`cury` its anchor (the rounded `top` of its first token); a token joins
while `abs(round(top) - cury) <= tol`, otherwise the bucket is closed
(re-sorted by `x0`) and a new one starts. -/
def groupGo (tol : ℤ) : List Tok → List Tok → ℤ → List (List Tok)
  | [], cur, _ => [sortByX cur]
  | w :: ws, cur, cury =>
    if |pyRound w.top - cury| ≤ tol then groupGo tol ws (cur ++ [w]) cury
    else sortByX cur :: groupGo tol ws [w] (pyRound w.top)

/-- `group_lines` from `pdf_processor_nike.py` (identical in
`pdf_processor.py`): sort tokens by (rounded top, x0) and walk them into
line buckets. -/
def group_lines (words : List Tok) (tol : ℤ) : List (List Tok) :=
  match sortTokens words with
  | [] => []
  | w :: ws => groupGo tol ws [w] (pyRound w.top)

/-! ### Destination Resolver — `dest_from_marks` of `pdf_processor_nike.py`
(identical in `pdf_processor.py`) -/

/-- Match the characters of a regex literal against the front of the
text: `.` matches any character, all other characters match
case-insensitively (`re.I`); returns the unconsumed rest.  This is the
body of the pattern `rf"\b{name}\b"` for the country names, whose only
regex metacharacter is `.`. -/
def matchPat : List Char → List Char → Option (List Char)
  | [], rest => some rest
  | _ :: _, [] => none
  | p :: ps, t :: ts =>
    if p = '.' || p.toLower = t.toLower then matchPat ps ts else none

/-- `\b` before the match: at start of text or after a non-word
character (the names all begin with a word character). -/
def startBoundary (prev : Option Char) : Bool :=
  match prev with
  | none => true
  | some c => !isWordChar c

/-- `\b` after the match: at end of text or before a non-word character
(the names all end with a word character). -/
def endBoundary (rest : List Char) : Bool :=
  match rest with
  | [] => true
  | c :: _ => !isWordChar c

/-- Worker for `re.search(rf"\b{name}\b", text, re.I)`: try the pattern
at every position, threading the previous character for the boundary
test. -/
def reWordSearchAux (pat : List Char) : Option Char → List Char → Bool
  | prev, ts =>
    (startBoundary prev &&
      (match matchPat pat ts with
       | some rest => endBoundary rest
       | none => false)) ||
    (match ts with
     | [] => false
     | t :: ts' => reWordSearchAux pat (some t) ts')

/-- `re.search(rf"\b{name}\b", text, flags=re.I) is not None`. -/
def reWordSearch (name : String) (text : String) : Bool :=
  reWordSearchAux name.data none text.data

/-- The fixed ordered country list `COUNTRY_SIMPLE`. -/
def COUNTRY_SIMPLE : List String :=
  ["Canada", "Belgium", "Poland", "Taiwan", "Singapore", "United Kingdom", "United States",
   "Netherlands", "France", "Germany", "Italy", "Spain", "Portugal", "Mexico", "Brazil", "China",
   "Japan", "Korea", "Turkey", "Australia", "New Zealand", "Thailand", "Indonesia", "Malaysia",
   "Philippines", "Vietnam", "Cambodia", "Laos", "Myanmar", "India", "Pakistan", "Bangladesh",
   "Sri Lanka", "U.A.E", "United Arab Emirates"]

/-- The alternation keywords of
`re.sub(r"^(kingdom|republic|state|federal|commonwealth)\s+of\s+", "", t, re.I)`. -/
def geoKeywords : List String :=
  ["kingdom", "republic", "state", "federal", "commonwealth"]

/-- Try to strip one keyword, then `\s+`, then `of` (case-insensitive),
then `\s+`, from the front. -/
def stripGeoKeyword (k : String) (cs : List Char) : Option (List Char) :=
  if (k.data).isPrefixOf (cs.map Char.toLower) then
    (parseWs1 (cs.drop k.data.length)).bind fun r1 =>
      match r1 with
      | o :: f :: r2 =>
        if o.toLower = 'o' && f.toLower = 'f' then parseWs1 r2 else none
      | _ => none
  else none

/-- `re.sub(r"^(kingdom|republic|state|federal|commonwealth)\s+of\s+", "", t, flags=re.I)`. -/
def stripGeoPrefix (cs : List Char) : List Char :=
  match geoKeywords.findSome? (fun k => stripGeoKeyword k cs) with
  | some rest => rest
  | none => cs

/-- Does `\s*\(.*?\)\s*$` match starting at position `i`?  The `\s*`
must reach the first non-whitespace character, which must be `(`; then
some later `)` must be followed only by whitespace, with no newline
inside the parentheses (`.` does not match newline). -/
def parenSuffixAt (cs : List Char) (i : Nat) : Bool :=
  match (cs.drop i).dropWhile isPySpace with
  | '(' :: rest =>
    (List.range rest.length).any (fun k =>
      rest.get? k = some ')' && (rest.take k).all (fun c => c ≠ '\n')
        && (rest.drop (k + 1)).all isPySpace)
  | _ => false

/-- `re.sub(r"\s*\(.*?\)\s*$", "", t)`: delete the leftmost trailing
parenthetical (with surrounding whitespace), if any. -/
def stripParenSuffix (cs : List Char) : List Char :=
  match (List.range (cs.length + 1)).find? (fun i => parenSuffixAt cs i) with
  | some i => cs.take i
  | none => cs

/-- `re.sub(r"^people's republic of\s+", "", t, flags=re.I)`. -/
def stripPeoples (cs : List Char) : List Char :=
  let lit : List Char := ("people\x27s republic of").data
  if lit.isPrefixOf (cs.map Char.toLower) then
    match parseWs1 (cs.drop lit.length) with
    | some rest => rest
    | none => cs
  else cs

/-- `clean_long_country_name` from `pdf_processor_nike.py` (identical in
`pdf_processor.py`). -/
def clean_long_country_name (s : String) : String :=
  let t0 := pyStripChars s.data
  let t1 := stripGeoPrefix t0
  let t2 := stripParenSuffix t1
  let t3 := stripPeoples t2
  let t4 := strReplaceChars ("Viet Nam").data ("Vietnam").data t3
  let t5 := strReplaceChars ("Korea, Republic of").data ("Korea").data t4
  let t6 := strReplaceChars ("U.S.A").data ("United States").data t5
  String.mk (pyStripChars t6)

/-- A capitalized word `[A-Z][a-z]+` at the front of the text, returning
(consumed, rest); the lowercase run is maximal. -/
def capWordP (cs : List Char) : Option (List Char × List Char) :=
  match cs with
  | c :: rest =>
    if 'A' ≤ c && c ≤ 'Z' then
      let lows := rest.takeWhile (fun ch => 'a' ≤ ch && ch ≤ 'z')
      if lows.isEmpty then none
      else some (c :: lows, rest.drop lows.length)
    else none
  | [] => none

/-- One `\s+[A-Z][a-z]+` continuation word with its leading whitespace. -/
def extraWordP (cs : List Char) : Option (List Char × List Char) :=
  let ws := cs.takeWhile isPySpace
  if ws.isEmpty then none
  else
    (capWordP (cs.drop ws.length)).map fun wr => (ws ++ wr.1, wr.2)

/-- `([A-Z][a-z]+(?:\s+[A-Z][a-z]+){0,2})\s*$` tried at the current
position: a capitalized word, greedily up to two more, then only
whitespace to the end of the string; returns the captured group. -/
def tailMatchAt (cs : List Char) : Option (List Char) :=
  (capWordP cs).bind fun w1 =>
    (((extraWordP w1.2).bind fun e1 =>
        (extraWordP e1.2).bind fun e2 =>
          if e2.2.all isPySpace then some (w1.1 ++ e1.1 ++ e2.1) else none) <|>
     ((extraWordP w1.2).bind fun e1 =>
        if e1.2.all isPySpace then some (w1.1 ++ e1.1) else none)) <|>
    (if w1.2.all isPySpace then some w1.1 else none)

/-- The fallback of `dest_from_marks`:
`re.findall(r"([A-Z][a-z]+(?:\s+[A-Z][a-z]+){0,2})\s*$", pre)` — the
anchored pattern admits at most one (leftmost) match, which `tail[-1]`
then selects. -/
def fallbackTail (cs : List Char) : Option (List Char) :=
  (List.range (cs.length + 1)).findSome? (fun i => tailMatchAt (cs.drop i))

/-- `marks.split("Country Of Origin", 1)[0]` guarded by
`if "Country Of Origin" in marks` (a case-sensitive literal). -/
def preOfMarks (marks : String) : String :=
  match strFindIndex marks "Country Of Origin" with
  | some i => String.mk (marks.data.take i)
  | none => marks

/-- `dest_from_marks` from `pdf_processor_nike.py` (identical in
`pdf_processor.py`): restrict to the text before "Country Of Origin",
keep the last `COUNTRY_SIMPLE` entry that word-matches, normalize it;
otherwise fall back to the trailing capitalized words. -/
def dest_from_marks (marks : String) : String :=
  if marks = "" then ""
  else
    let pre := preOfMarks marks
    let found := COUNTRY_SIMPLE.foldl
      (fun acc name => if reWordSearch name pre then name else acc) ""
    if found ≠ "" then clean_long_country_name found
    else
      match fallbackTail pre.data with
      | some w => clean_long_country_name (String.mk w)
      | none => ""

/-! ### `RE_PO_ANY` — `re.compile(r"\bPO\W*#?\W*[: ]\s*(\d{7,})", re.IGNORECASE)` -/

/-- Can the digit-free run between "PO" and the first digit be matched
by `\W*#?\W*[: ]\s*`?  Since `#` is itself a non-word character, this
holds exactly when every character is non-word and some `:` or space is
followed only by whitespace. -/
def poMiddleOk (m : List Char) : Bool :=
  m.all (fun c => !isWordChar c) &&
  (List.range m.length).any (fun p =>
    (m.get? p = some ':' || m.get? p = some ' ') && (m.drop (p + 1)).all isPySpace)

/-- Fuel-indexed scan of `RE_PO_ANY.finditer`: leftmost non-overlapping
matches, collecting the digit groups; `prevWord` carries whether the
previous character is a word character (for the leading `\b`). -/
def rePoAnyAux : Nat → Bool → List Char → List String
  | 0, _, _ => []
  | _, _, [] => []
  | fuel + 1, prevWord, c1 :: rest1 =>
    let attempt : Option (String × List Char) :=
      if !prevWord && (c1 = 'P' || c1 = 'p') then
        match rest1 with
        | c2 :: rest2 =>
          if c2 = 'O' || c2 = 'o' then
            let mid := rest2.takeWhile (fun c => !c.isDigit)
            let afterMid := rest2.drop mid.length
            let digits := afterMid.takeWhile Char.isDigit
            if poMiddleOk mid && decide (7 ≤ digits.length) then
              some (String.mk digits, afterMid.drop digits.length)
            else none
          else none
        | [] => none
      else none
    match attempt with
    | some gr => gr.1 :: rePoAnyAux fuel true gr.2
    | none => rePoAnyAux fuel (isWordChar c1) rest1

/-- `[mm.group(1) for mm in RE_PO_ANY.finditer(s)]`. -/
def rePoAnyGroups (s : String) : List String :=
  rePoAnyAux s.data.length false s.data

/-! ### `parse_pl` — the Field Rule Extractor of `pdf_processor_nike.py`
(`parse_pl_pdf` in `pdf_processor.py` is line-for-line identical).

A page is modelled by the results of the per-page pattern applications
that `parse_pl` performs on the page text delivered by the external
token provider (`page.extract_text()`): the optional `Invoice Number`
and `Date` search groups, the `RE_REFPO` / `RE_PO_ANY` groups found in
the page text, the `grab` results for the eight `or`-guarded fields
(already whitespace-normalized, empty when the pattern missed), and the
`extract_marks` output for the page.  The PO harvest from the marks
text is computed here by the `RE_PO_ANY` model above, exactly as the
source applies `RE_PO_ANY.finditer(mk)`. -/

structure PageScan where
  invoiceMatch : Option String
  dateMatch : Option String
  refpoMatches : List String
  poMatches : List String
  itemSeq : String
  material : String
  desc : String
  custShip : String
  plant : String
  gross : String
  cartons : String
  units : String
  marks : String
deriving DecidableEq

/-- The fixed-key field record built by `parse_pl` (its `row` dict). -/
structure PLRow where
  invoiceNumber : String
  date : String
  po : String
  referencePO : String
  itemSeq : String
  material : String
  desc : String
  custShip : String
  plant : String
  gross : String
  cartons : String
  units : String
  marks : String
deriving DecidableEq

/-- The initial all-empty record. -/
def emptyRow : PLRow :=
  ⟨"", "", "", "", "", "", "", "", "", "", "", "", ""⟩

/-- Python's `a or b` on strings: keep `a` unless it is empty. -/
def pyOr (a b : String) : String := if a ≠ "" then a else b

/-- The loop state of `parse_pl`: the record plus the two candidate
accumulators `refpo_hits` and `po_hits`. -/
structure PLState where
  row : PLRow
  refpoHits : List String
  poHits : List String
deriving DecidableEq

/-- One iteration of the `for page in pdf.pages` loop of `parse_pl`,
written as a simultaneous record update (the statements of the loop body
touch pairwise disjoint state, so the sequential Python assignments and
this simultaneous form agree): `Invoice Number`, `Date` and `Marks` are
assigned unconditionally whenever their page pattern produced a result,
the eight `row[k] = row[k] or grab(...)` fields keep an earlier
non-empty value, and the candidate accumulators append this page's
matches (the text matches first, then — inside `if mk:` — the harvest
from the marks text). -/
def processPage (st : PLState) (p : PageScan) : PLState :=
  { row :=
      { invoiceNumber :=
          match p.invoiceMatch with
          | some s => pyNorm s
          | none => st.row.invoiceNumber
        date :=
          match p.dateMatch with
          | some s => to_dmy s
          | none => st.row.date
        po := st.row.po
        referencePO := st.row.referencePO
        itemSeq := pyOr st.row.itemSeq p.itemSeq
        material := pyOr st.row.material p.material
        desc := pyOr st.row.desc p.desc
        custShip := pyOr st.row.custShip p.custShip
        plant := pyOr st.row.plant p.plant
        gross := pyOr st.row.gross p.gross
        cartons := pyOr st.row.cartons p.cartons
        units := pyOr st.row.units p.units
        marks := if p.marks ≠ "" then pyNorm p.marks else st.row.marks }
    refpoHits := st.refpoHits ++ p.refpoMatches
    poHits := (st.poHits ++ p.poMatches) ++
      (if p.marks ≠ "" then rePoAnyGroups p.marks else []) }

/-- `parse_pl` from `pdf_processor_nike.py`: fold the pages in document
order, then resolve the two PO fields from the accumulated candidate
lists. -/
def parse_pl (pages : List PageScan) : PLRow :=
  let st := pages.foldl processPage ⟨emptyRow, [], []⟩
  let row := st.row
  let row :=
    if st.refpoHits ≠ [] then { row with referencePO := st.refpoHits.headD "" }
    else if st.poHits ≠ [] then { row with referencePO := st.poHits.headD "" }
    else row
  if st.poHits ≠ [] then { row with po := st.poHits.headD "" } else row

/-- All `Reference PO#` candidates of a document in discovery order. -/
def refpoAll (pages : List PageScan) : List String :=
  (pages.map (fun p => p.refpoMatches)).flatten

/-- All generic `PO` candidates of a document in discovery order: the
page-text matches of each page followed by the matches harvested from
that page's non-empty marks text. -/
def poAll (pages : List PageScan) : List String :=
  (pages.map (fun p =>
    p.poMatches ++ (if p.marks ≠ "" then rePoAnyGroups p.marks else []))).flatten

/-! ### `_clean_desc` — the description canonicalizer of
`pdf_processor_nike.py` (identical in `pdf_processor.py`) -/

/-- Fuel-indexed model of `re.sub(r"\b\d+[A-Z]*\b", "", d)`: at a
position opening a word boundary, a maximal digit run followed by a
maximal uppercase run matches exactly when the character after the runs
is a non-word character or the end (no shorter reading can close the
`\b`); matches are deleted, scanning resumes after them. -/
def stripNumRunsAux : Nat → Bool → List Char → List Char
  | 0, _, cs => cs
  | _, _, [] => []
  | fuel + 1, prevWord, c :: cs =>
    if !prevWord && c.isDigit then
      let digits := (c :: cs).takeWhile Char.isDigit
      let r1 := (c :: cs).drop digits.length
      let azs := r1.takeWhile (fun ch => 'A' ≤ ch && ch ≤ 'Z')
      let r2 := r1.drop azs.length
      if endBoundary r2 then stripNumRunsAux fuel true r2
      else c :: stripNumRunsAux fuel true cs
    else c :: stripNumRunsAux fuel (isWordChar c) cs

/-- `re.sub(r"\b\d+[A-Z]*\b", "", d)`. -/
def stripNumRuns (cs : List Char) : List Char :=
  stripNumRunsAux cs.length false cs

/-- `_clean_desc` from `pdf_processor_nike.py`: normalize and uppercase,
delete quantity tokens, blank non-letters, collapse whitespace, then map
through the product-type table in its source order ("SKULL CAP", "HAT",
"CAP", "BEANIE", "SCULL CAP"). -/
def _clean_desc (d : String) : String :=
  let d1 := pyUpper (pyNorm d)
  let d2 := String.mk (stripNumRuns d1.data)
  let d3 := String.mk (d2.data.map
    (fun c => if ('A' ≤ c && c ≤ 'Z') || c = ' ' then c else ' '))
  let d4 := pyNorm d3
  if strContains d4 "SKULL CAP" then "SKULL CAP"
  else if strContains d4 "HAT" then "HAT"
  else if strContains d4 "CAP" then "CAP"
  else if strContains d4 "BEANIE" then "BEANIE"
  else if strContains d4 "SCULL CAP" then "SKULL CAP"
  else d4

/-! ### The Placeholder Template Engine

`NikeTemplateManager` uses the pattern `\{([^}]+)\}` (curly braces), the
plain `TemplateManager` uses `\[([^\]]+)\]` (square brackets); both
regexes have the same shape, so the scanner and substituter are defined
once over an opening and a closing delimiter character. -/

/-- Fuel-indexed model of `pattern.findall(text)` for the placeholder
regex with delimiters `o`/`c`: at each `o`, the (necessarily maximal)
run of non-`c` characters followed by `c` yields a match when non-empty;
matches are non-overlapping, scanning is left-to-right. -/
def placeholderFindAux (o c : Char) : Nat → List Char → List String
  | 0, _ => []
  | _, [] => []
  | fuel + 1, x :: xs =>
    if x = o then
      let name := xs.takeWhile (fun ch => ch ≠ c)
      match xs.drop name.length with
      | _ :: rest =>
        if !name.isEmpty then String.mk name :: placeholderFindAux o c fuel rest
        else placeholderFindAux o c fuel xs
      | [] => placeholderFindAux o c fuel xs
    else placeholderFindAux o c fuel xs

/-- `pattern.findall(text)`: the list of placeholder names in `text`, in
order of occurrence. -/
def placeholderFind (o c : Char) (text : String) : List String :=
  placeholderFindAux o c text.data.length text.data

/-- Fuel-indexed model of `pattern.sub(replace_func, text)` where
`replace_func` is `str(data_dict.get(match.group(1), match.group(0)))`:
a matched placeholder becomes the looked-up value, or stays as the
original literal token when the name is absent from the map. -/
def placeholderSubAux (o c : Char) (m : String → Option String) :
    Nat → List Char → List Char
  | 0, cs => cs
  | _, [] => []
  | fuel + 1, x :: xs =>
    if x = o then
      let name := xs.takeWhile (fun ch => ch ≠ c)
      match xs.drop name.length with
      | _ :: rest =>
        if !name.isEmpty then
          (match m (String.mk name) with
           | some v => v.data
           | none => o :: (name ++ [c])) ++ placeholderSubAux o c m fuel rest
        else x :: placeholderSubAux o c m fuel xs
      | [] => x :: placeholderSubAux o c m fuel xs
    else x :: placeholderSubAux o c m fuel xs

/-- `pattern.sub(replace_func, text)`.  Values of the data map are
modelled as the `str()` images the code computes. -/
def placeholderSub (o c : Char) (m : String → Option String) (text : String) : String :=
  String.mk (placeholderSubAux o c m text.data.length text.data)

/-- A worksheet cell: `none` models an empty cell; every cell value this
model handles is text (the `isinstance(cell.value, str)` guards of the
source make non-string values behave like skipped cells in the scan and
fill paths modelled here). -/
abbrev Sheet := List (List (Option String))

/-- A workbook: the ordered sheets with their names (openpyxl sheet
names are unique within a workbook). -/
abbrev Workbook := List (String × Sheet)

/-- `wb.sheetnames`. -/
def sheetnames (wb : Workbook) : List String := wb.map Prod.fst

/-- Code-point lexicographic comparison of character lists (the
ordering Python's `sorted` applies to strings). -/
def charListLt : List Char → List Char → Bool
  | [], [] => false
  | [], _ :: _ => true
  | _ :: _, [] => false
  | a :: as, b :: bs => a < b || (a = b && charListLt as bs)

/-- `sorted(list(placeholders))` where `placeholders` is a `set`:
deduplicate, then sort lexicographically. -/
def sortedDedup (xs : List String) : List String :=
  List.insertionSort (fun a b => a = b ∨ charListLt a.data b.data = true) xs.dedup

/-- The placeholder names found in the string cells of one sheet
(`cell.value and isinstance(cell.value, str)`: empty cells and empty
strings are skipped). -/
def sheetPlaceholders (o c : Char) (sh : Sheet) : List String :=
  (sh.map (fun row =>
    (row.map (fun cell =>
      match cell with
      | some v => if v ≠ "" then placeholderFind o c v else []
      | none => [])).flatten)).flatten

namespace NikeTemplateManager

/-- `NikeTemplateManager._replace_placeholders_in_text` (pattern
`\{([^}]+)\}`). -/
def _replace_placeholders_in_text (text : String) (data : String → Option String) : String :=
  placeholderSub '{' '}' data text

/-- The `sheets_to_scan` selection of `scan_template_placeholders`:
`[sheet_name] if sheet_name and sheet_name in wb.sheetnames else
wb.sheetnames`, resolved to the sheets themselves. -/
def sheetsToScan (wb : Workbook) (sheetName : Option String) : List (String × Sheet) :=
  match sheetName with
  | some s => if s ≠ "" ∧ s ∈ sheetnames wb then wb.filter (fun p => p.1 = s) else wb
  | none => wb

/-- `NikeTemplateManager.scan_template_placeholders`: scan the named
sheet when the name is given and present, otherwise every sheet; return
the sorted, deduplicated placeholder name set. -/
def scan_template_placeholders (wb : Workbook) (sheetName : Option String) : List String :=
  sortedDedup (((sheetsToScan wb sheetName).map (fun p => sheetPlaceholders '{' '}' p.2)).flatten)

/-- `NikeTemplateManager.replace_placeholders_in_sheet_preserve_format`.

The method's loop calls `self.replace_placeholders_in_text(...)`, but
the class defines only `_replace_placeholders_in_text`; on the first
cell whose string value contains `{`, the attribute access raises
`AttributeError` before that cell (or any cell) is mutated, the
surrounding `except` clause logs it, and the counter — still `0` — is
returned.  Cells without `{` are skipped by the guard and never
mutated either.  The runtime behaviour on every input is therefore:
sheet unchanged, zero replacements. -/
def replace_placeholders_in_sheet_preserve_format (sh : Sheet)
    (_data : String → Option String) : Sheet × Nat :=
  (sh, 0)

/-- `NikeTemplateManager.create_filled_template`: pick the named sheet
when present, otherwise every sheet except `"Data"`; run the
format-preserving replacement over the chosen sheets; saving is
modelled as returning the resulting workbook, the total replacement
count, and the success flag (`True` — the `except` path covers only
external I/O failures, which are outside the model).

`sheetsToProcess` is its `sheets_to_process` selection:
`[sheet_name] if sheet_name and sheet_name in wb.sheetnames else
[s for s in wb.sheetnames if s != 'Data']`. -/
def sheetsToProcess (wb : Workbook) (sheetName : Option String) : List String :=
  match sheetName with
  | some s =>
    if s ≠ "" ∧ s ∈ sheetnames wb then [s]
    else (sheetnames wb).filter (fun n => n ≠ "Data")
  | none => (sheetnames wb).filter (fun n => n ≠ "Data")

/-- `NikeTemplateManager.create_filled_template` proper; see above. -/
def create_filled_template (wb : Workbook) (data : String → Option String)
    (sheetName : Option String) : Workbook × Nat × Bool :=
  let toProcess := sheetsToProcess wb sheetName
  let wb' := wb.map (fun p =>
    if p.1 ∈ toProcess then (p.1, (replace_placeholders_in_sheet_preserve_format p.2 data).1) else p)
  let total := (wb.map (fun p =>
    if p.1 ∈ toProcess then (replace_placeholders_in_sheet_preserve_format p.2 data).2 else 0)).sum
  (wb', total, true)

end NikeTemplateManager

namespace TemplateManager

/-- `TemplateManager._replace_placeholders_in_text` (pattern
`\[([^\]]+)\]`). -/
def _replace_placeholders_in_text (text : String) (data : String → Option String) : String :=
  placeholderSub '[' ']' data text

/-- One cell of `TemplateManager.replace_placeholders_in_sheet`: the new
value and whether it changed. -/
def replaceCell (data : String → Option String) (cell : Option String) :
    Option String × Bool :=
  match cell with
  | some v =>
    if v ≠ "" then
      let nv := _replace_placeholders_in_text v data
      (some nv, nv ≠ v)
    else (cell, false)
  | none => (cell, false)

/-- `TemplateManager.replace_placeholders_in_sheet`: substitute in every
string cell, counting the cells whose value changed.  (The optional
shape/drawing pass of the source is a no-op for the cell grid modelled
here.) -/
def replace_placeholders_in_sheet (sh : Sheet) (data : String → Option String) :
    Sheet × Nat :=
  ((sh.map (fun row => row.map (fun cell => (replaceCell data cell).1))),
   (sh.map (fun row =>
     (row.map (fun cell => if (replaceCell data cell).2 then 1 else 0)).sum)).sum)

/-- `TemplateManager.scan_template_placeholders`: scan every sheet;
return the sorted, deduplicated placeholder name set. -/
def scan_template_placeholders (wb : Workbook) : List String :=
  sortedDedup ((wb.map (fun p => sheetPlaceholders '[' ']' p.2)).flatten)

/-- `TemplateManager.create_filled_template`: substitute in every sheet
of the workbook (page setup and saving are external I/O, modelled as
returning the result workbook, the replacement count and the success
flag). -/
def create_filled_template (wb : Workbook) (data : String → Option String) :
    Workbook × Nat × Bool :=
  let wb' := wb.map (fun p => (p.1, (replace_placeholders_in_sheet p.2 data).1))
  let total := (wb.map (fun p => (replace_placeholders_in_sheet p.2 data).2)).sum
  (wb', total, true)

end TemplateManager

/-! ### Header Column Mapper and Row-Append Writer of
`template_manager_nike.py` -/

/-- The fixed field keys of the `cols` dictionary built by
`NikeTemplateManager.build_header_map_and_get_cols`. -/
inductive NField
  | inv | date | po | refpo | itemseq | material | desc | custship
  | plant | gross | cartons | units | marks | description | dest
deriving DecidableEq, Fintype

namespace NikeTemplateManager

/-- `NikeTemplateManager.header_key`:
`re.sub(r"[^a-z0-9#]+", " ", str(s).lower()).strip()`. -/
def header_key (s : String) : String :=
  String.mk (List.intercalate [' ']
    (splitRuns (fun c => !(('a' ≤ c && c ≤ 'z') || c.isDigit || c = '#'))
      (pyLower s).data))

/-- Worker for `buildHeaderDict`: walk the header cells with their
column numbers, threading the dict built so far; a non-empty cell
assigns its key to its column, overwriting any earlier binding, as
Python dict assignment does. -/
def buildHeaderDictAux : Nat → List (Option String) → (String → Option Nat) →
    (String → Option Nat)
  | _, [], acc => acc
  | col, cell :: rest, acc =>
    buildHeaderDictAux (col + 1) rest
      (match cell with
       | some raw =>
         if pyStrip raw ≠ "" then
           fun k => if k = header_key raw then some col else acc k
         else acc
       | none => acc)

/-- The `header` dict of `build_header_map_and_get_cols`:
`for c in range(1, ws.max_column + 1): ... header[self.header_key(raw)] = c`
over the cells of columns `1..max_column`. -/
def buildHeaderDict (headerCells : List (Option String)) : String → Option Nat :=
  buildHeaderDictAux 1 headerCells (fun _ => none)

/-- The columns (in ascending order, starting at `col`) whose non-empty
cell normalizes to the key `k` — the assignment sites of the header-dict
loop for `k`. -/
def headerOccurrencesAux : Nat → List (Option String) → String → List Nat
  | _, [], _ => []
  | col, cell :: rest, k =>
    (match cell with
     | some raw => if pyStrip raw ≠ "" ∧ header_key raw = k then [col] else []
     | none => []) ++ headerOccurrencesAux (col + 1) rest k

/-- The columns of the header row whose non-empty cell normalizes to `k`. -/
def headerOccurrences (headerCells : List (Option String)) (k : String) : List Nat :=
  headerOccurrencesAux 1 headerCells k

/-- The ordered alias list each field is resolved through (`pick`). -/
def fieldAliases : NField → List String
  | .inv => ["invoice number", "invoice no", "invoice"]
  | .date => ["date"]
  | .po => ["po", "po#", "purchase order", "purchase order #"]
  | .refpo => ["reference po#", "reference po #", "reference po", "po# reference"]
  | .itemseq => ["item seq", "item seq.", "item", "seq"]
  | .material => ["material"]
  | .desc => ["desc", "description short", "product desc"]
  | .custship => ["customer ship to #", "customer ship to", "ship to #"]
  | .plant => ["plant"]
  | .gross => ["total gross kgs", "gross kgs"]
  | .cartons => ["total cartons", "cartons"]
  | .units => ["total units", "units"]
  | .marks => ["marks"]
  | .description => ["description"]
  | .dest => ["dest", "destination"]

/-- The `ensure` defaults (columns 1–15 in field-declaration order). -/
def fieldDefault : NField → Nat
  | .inv => 1 | .date => 2 | .po => 3 | .refpo => 4 | .itemseq => 5
  | .material => 6 | .desc => 7 | .custship => 8 | .plant => 9 | .gross => 10
  | .cartons => 11 | .units => 12 | .marks => 13 | .description => 14 | .dest => 15

/-- `NikeTemplateManager.build_header_map_and_get_cols`: resolve each
field through its alias list against the header dict (`pick`), then
apply the `ensure` default when unresolved (or resolved to an index
below 1, which the dict never produces). -/
def build_header_map_and_get_cols (headerCells : List (Option String)) (f : NField) : Nat :=
  match (fieldAliases f).findSome? (buildHeaderDict headerCells) with
  | some col => if 1 ≤ col then col else fieldDefault f
  | none => fieldDefault f

end NikeTemplateManager

/-- A worksheet for the row-append writer: a cell grid (1-based row and
column indices) with the used-range bounds openpyxl reports. -/
structure Ws where
  cells : Nat → Nat → Option String
  maxRow : Nat
  maxCol : Nat

/-- Assign `ws.cell(row=r, column=c).value = v` (writing extends the
used range). -/
def Ws.setCell (ws : Ws) (r c : Nat) (v : String) : Ws :=
  { cells := fun r' c' => if r' = r ∧ c' = c then some v else ws.cells r' c'
    maxRow := max ws.maxRow r
    maxCol := max ws.maxCol c }

/-- Python truthiness of an optional string. -/
def pyTruthyOpt : Option String → Bool
  | some s => s ≠ ""
  | none => false

namespace NikeTemplateManager

/-- The row scan of `find_or_append_row`: walk rows `start_row ..
max_row`; stop with `(false, r)` at the first empty cell (`first_empty`,
which breaks the loop), or with `(true, r)` at the first cell whose
normalized uppercase text equals the invoice key. -/
def findRowLoop (ws : Ws) (invCol : Nat) (invKey : String) : List Nat → Option (Bool × Nat)
  | [] => none
  | r :: rs =>
    match ws.cells r invCol with
    | none => some (false, r)
    | some v =>
      if pyStrip v = "" then some (false, r)
      else if pyUpper (pyNorm v) = invKey then some (true, r)
      else findRowLoop ws invCol invKey rs

/-- `NikeTemplateManager.find_or_append_row`: reuse a matching row;
otherwise write the invoice into the first empty row, or one past the
used range.  (openpyxl row indices start at 1, so `first_empty` is
never the falsy `0`.) -/
def find_or_append_row (ws : Ws) (invCol startRow : Nat) (invoice : String) : Ws × Nat :=
  let invKey := pyUpper (pyNorm invoice)
  match findRowLoop ws invCol invKey (List.range' startRow (ws.maxRow + 1 - startRow)) with
  | some (true, r) => (ws, r)
  | some (false, r) => (ws.setCell r invCol invoice, r)
  | none =>
    let target := if startRow ≤ ws.maxRow then ws.maxRow + 1 else startRow
    (ws.setCell target invCol invoice, target)

/-- `setc` inside `fill_excel_row`: write only when the value is neither
`None` nor the empty string. -/
def setc (ws : Ws) (r col : Nat) (val : Option String) : Ws :=
  match val with
  | some v => if v ≠ "" then ws.setCell r col v else ws
  | none => ws

/-- `NikeTemplateManager.fill_excel_row`: resolve the target row via
`find_or_append_row`, then write each non-empty field of the PL record
(plus the destination and the booking description) into its mapped
column. -/
def fill_excel_row (ws : Ws) (cols : NField → Nat) (startRow : Nat) (inv : String)
    (plRow : String → Option String) (asiDesc : String) (destOverride : Option String) :
    Ws × Nat :=
  let fr := find_or_append_row ws (cols .inv) startRow inv
  let r := fr.2
  let w1 := setc fr.1 r (cols .date) (plRow "Date")
  let w2 := setc w1 r (cols .po) (plRow "PO")
  let w3 := setc w2 r (cols .refpo) (plRow "Reference PO#")
  let w4 := setc w3 r (cols .itemseq) (plRow "Item Seq.")
  let w5 := setc w4 r (cols .material) (plRow "Material")
  let w6 := setc w5 r (cols .desc) (plRow "Desc")
  let w7 := setc w6 r (cols .custship) (plRow "Customer Ship To #")
  let w8 := setc w7 r (cols .plant) (plRow "Plant")
  let w9 := setc w8 r (cols .gross) (plRow "Total Gross Kgs")
  let w10 := setc w9 r (cols .cartons) (plRow "Total Cartons")
  let w11 := setc w10 r (cols .units) (plRow "Total Units")
  let w12 := setc w11 r (cols .marks) (plRow "Marks")
  let w13 :=
    if pyTruthyOpt destOverride then setc w12 r (cols .dest) destOverride
    else if pyTruthyOpt (plRow "DEST") then setc w12 r (cols .dest) (plRow "DEST")
    else w12
  let w14 := if asiDesc ≠ "" then setc w13 r (cols .description) (some asiDesc) else w13
  (w14, r)

end NikeTemplateManager

/-! ### Claim-support definitions -/

/-- A segmentation of a cell text into literal chunks and
delimiter-wrapped placeholders. -/
inductive Seg
  | lit (s : String)
  | ph (name : String)
deriving DecidableEq

/-- The text a segmentation denotes, with delimiters `o`/`c` around each
placeholder name. -/
def segFlatten (o c : Char) : List Seg → List Char
  | [] => []
  | .lit s :: rest => s.data ++ segFlatten o c rest
  | .ph n :: rest => o :: (n.data ++ c :: segFlatten o c rest)

/-- The expected substitution result: placeholders present in the map
become their value, absent ones stay as the original literal token. -/
def segRender (o c : Char) (m : String → Option String) : List Seg → List Char
  | [] => []
  | .lit s :: rest => s.data ++ segRender o c m rest
  | .ph n :: rest =>
    (match m n with
     | some v => v.data
     | none => o :: (n.data ++ [c])) ++ segRender o c m rest

/-- Well-formedness of a segment for delimiters `o`/`c`: literal chunks
contain no opening delimiter, placeholder names are non-empty and
contain no closing delimiter (the shape the placeholder regex
`\{([^}]+)\}` / `\[([^\]]+)\]` gives every match). -/
def segWF (o c : Char) : Seg → Prop
  | .lit s => o ∉ s.data
  | .ph n => n ≠ "" ∧ c ∉ n.data

instance (o c : Char) (sg : Seg) : Decidable (segWF o c sg) := by
  cases sg <;> (unfold segWF; infer_instance)

namespace NikeTemplateManager

/-- The value `fill_excel_row` passes to `setc` for each field, `none`
when no `setc` call is made for it (the invoice identifier is written by
the row resolution, not by `setc`). -/
def fieldWrite (plRow : String → Option String) (asiDesc : String)
    (destOverride : Option String) : NField → Option String
  | .inv => none
  | .date => plRow "Date"
  | .po => plRow "PO"
  | .refpo => plRow "Reference PO#"
  | .itemseq => plRow "Item Seq."
  | .material => plRow "Material"
  | .desc => plRow "Desc"
  | .custship => plRow "Customer Ship To #"
  | .plant => plRow "Plant"
  | .gross => plRow "Total Gross Kgs"
  | .cartons => plRow "Total Cartons"
  | .units => plRow "Total Units"
  | .marks => plRow "Marks"
  | .description => if asiDesc ≠ "" then some asiDesc else none
  | .dest =>
    if pyTruthyOpt destOverride then destOverride
    else if pyTruthyOpt (plRow "DEST") then plRow "DEST"
    else none

/-- A value `setc` ignores: `None` or the empty string. -/
def emptyish (v : Option String) : Prop := v = none ∨ v = some ""

instance (v : Option String) : Decidable (emptyish v) := by
  unfold emptyish; infer_instance

end NikeTemplateManager

/-- Concrete worksheet for the Row-Append Writer claim: row 8 holds the
invoice `"A123"` in column 1 and `"OLD"` in column 5. -/
def wsC9 : Ws :=
  { cells := fun r c =>
      if r = 8 ∧ c = 1 then some "A123"
      else if r = 8 ∧ c = 5 then some "OLD"
      else none
    maxRow := 8
    maxCol := 5 }

/-- Concrete colliding field map for the Row-Append Writer claim:
`marks` and `itemseq` share column 5. -/
def colsC9 : NField → Nat
  | .inv => 1
  | .itemseq => 5
  | .marks => 5
  | _ => 2

/-- Concrete data record for the Row-Append Writer claim: a non-empty
`Item Seq.` and an empty `Marks`. -/
def plC9 : String → Option String
  | "Item Seq." => some "X"
  | "Marks" => some ""
  | _ => none

/-- Concrete injective field map (the schema defaults) for the
Row-Append Writer witness. -/
def colsC9w : NField → Nat := NikeTemplateManager.fieldDefault

/-- Concrete worksheet for the Row-Append Writer witness: row 8 holds
the invoice `"A123"` in column 1 and `"KEEP"` in column 2 (the `date`
column). -/
def wsC9w : Ws :=
  { cells := fun r c =>
      if r = 8 ∧ c = 1 then some "A123"
      else if r = 8 ∧ c = 2 then some "KEEP"
      else none
    maxRow := 8
    maxCol := 2 }

/-- Concrete data record for the Row-Append Writer witness: `Date` is
absent, `PO` is present. -/
def plC9w : String → Option String
  | "PO" => some "1234567"
  | _ => none

/-- The page pattern results (`f`) mapped through `g`, each page's match
overwriting the value carried so far — so the **last** matching page
wins over the default.  This is the accumulation the unconditional
`row[k] = ...` assignments of `parse_pl` perform across pages. -/
def lastSome (f : PageScan → Option String) (g : String → String) :
    List PageScan → String → String
  | [], dflt => dflt
  | p :: ps, dflt =>
    lastSome f g ps (match f p with | some s => g s | none => dflt)

/-- The normalized marks text of each page with non-empty marks,
each overwriting the value carried so far (last such page wins) — the
accumulation of `if mk: row["Marks"] = norm(mk)` across pages. -/
def lastMarks : List PageScan → String → String
  | [], dflt => dflt
  | p :: ps, dflt =>
    lastMarks ps (if p.marks ≠ "" then pyNorm p.marks else dflt)

/-- The first non-empty per-page value of a field (Python `or` folded in
page order) — the accumulation of `row[k] = row[k] or grab(...)` across
pages. -/
def firstNonEmpty (f : PageScan → String) : List PageScan → String
  | [] => ""
  | p :: ps => pyOr (f p) (firstNonEmpty f ps)

/-- Page 1 of the cross-page-accumulation counterexample: the invoice
pattern matches `"A1"`. -/
def pgC1a : PageScan :=
  ⟨some "A1", none, [], [], "", "", "", "", "", "", "", "", ""⟩

/-- Page 2 of the cross-page-accumulation counterexample: the invoice
pattern matches `"A2"`. -/
def pgC1b : PageScan :=
  ⟨some "A2", none, [], [], "", "", "", "", "", "", "", "", ""⟩

/-! ## Theorems -/

/-! ### Header Column Mapper (C7) -/

theorem buildHeaderDictAux_eq (cells : List (Option String)) :
    ∀ (col : Nat) (acc : String → Option Nat) (k : String),
      NikeTemplateManager.buildHeaderDictAux col cells acc k =
        match (NikeTemplateManager.headerOccurrencesAux col cells k).getLast? with
        | some c => some c
        | none => acc k := by
  induction cells with
  | nil =>
    intro col acc k
    simp [NikeTemplateManager.buildHeaderDictAux, NikeTemplateManager.headerOccurrencesAux]
  | cons cell rest ih =>
    intro col acc k
    simp only [NikeTemplateManager.buildHeaderDictAux, NikeTemplateManager.headerOccurrencesAux]
    rw [ih]
    cases cell with
    | none => simp
    | some raw =>
      dsimp only
      by_cases hne : pyStrip raw = ""
      · rw [if_neg (fun h : pyStrip raw ≠ "" => h hne),
          if_neg (fun h : pyStrip raw ≠ "" ∧ NikeTemplateManager.header_key raw = k => h.1 hne),
          List.nil_append]
      · rw [if_pos hne]
        by_cases hkey : NikeTemplateManager.header_key raw = k
        · rw [if_pos (And.intro hne hkey), List.getLast?_append]
          cases hlast : (NikeTemplateManager.headerOccurrencesAux (col + 1) rest k).getLast? with
          | some c => simp [hlast, Option.or]
          | none => simp [hlast, Option.or, if_pos hkey.symm]
        · have hk2 : ¬ (k = NikeTemplateManager.header_key raw) := fun h => hkey h.symm
          rw [if_neg (fun h : pyStrip raw ≠ "" ∧ NikeTemplateManager.header_key raw = k => hkey h.2),
            List.nil_append]
          cases hlast : (NikeTemplateManager.headerOccurrencesAux (col + 1) rest k).getLast? <;>
            simp [hlast, hk2]

/-- C7, corrected.  Duplicate header keys: the header dict built by
`build_header_map_and_get_cols` binds every canonical key to the column
of its **last** (rightmost) non-empty occurrence in the header row —
Python's `header[key] = c` in ascending column order overwrites earlier
bindings. -/
theorem header_map_last_occurrence_wins (cells : List (Option String)) (k : String) :
    NikeTemplateManager.buildHeaderDict cells k =
      (NikeTemplateManager.headerOccurrences cells k).getLast? := by
  unfold NikeTemplateManager.buildHeaderDict NikeTemplateManager.headerOccurrences
  rw [buildHeaderDictAux_eq]
  cases h : (NikeTemplateManager.headerOccurrencesAux 1 cells k).getLast? <;> simp

/-- C7, counterexample.  A header row with `"PO"` in both column 1 and
column 2 binds the key `"po"` to column 2, not to the first (leftmost)
occurrence in column 1; the resolved field map follows suit. -/
theorem header_map_first_occurrence_refuted :
    NikeTemplateManager.buildHeaderDict [some "PO", some "PO"] "po" = some 2 ∧
    NikeTemplateManager.buildHeaderDict [some "PO", some "PO"] "po" ≠ some 1 ∧
    NikeTemplateManager.build_header_map_and_get_cols [some "PO", some "PO"] NField.po = 2 := by
  decide

/-! ### Description canonicalization (C8) -/

/-- C8, code bug.  The cleaned text `"SCULL CAP"` contains the substring
`"CAP"`, which the canonicalization table tests **before** reaching its
own `"SCULL CAP" → "SKULL CAP"` entry; `_clean_desc` therefore returns
`"CAP"`, never `"SKULL CAP"`, on every input whose cleaned text contains
`"SCULL CAP"` (that entry of the table is unreachable). -/
theorem clean_desc_scull_cap_eval :
    _clean_desc "SCULL CAP" = "CAP" ∧ _clean_desc "SCULL CAP" ≠ "SKULL CAP" := by
  decide

/-! ### Sheet-name fallback (C10) -/

/-- C10.  Calling `create_filled_template` (or
`scan_template_placeholders`) with a sheet name absent from the workbook
raises nothing and reports success: it behaves exactly as if no sheet
name had been given — processing every sheet except `"Data"` (for the
scan: every sheet). -/
theorem missing_sheet_name_falls_back (wb : Workbook) (data : String → Option String)
    (s : String) (hs : s ∉ sheetnames wb) :
    NikeTemplateManager.create_filled_template wb data (some s) =
      NikeTemplateManager.create_filled_template wb data none ∧
    (NikeTemplateManager.create_filled_template wb data (some s)).2.2 = true ∧
    NikeTemplateManager.scan_template_placeholders wb (some s) =
      NikeTemplateManager.scan_template_placeholders wb none := by
  have hcond : ¬ (s ≠ "" ∧ s ∈ sheetnames wb) := fun h => hs h.2
  have hp : NikeTemplateManager.sheetsToProcess wb (some s) =
      NikeTemplateManager.sheetsToProcess wb none := by
    unfold NikeTemplateManager.sheetsToProcess
    dsimp only
    rw [if_neg hcond]
  have hsc : NikeTemplateManager.sheetsToScan wb (some s) =
      NikeTemplateManager.sheetsToScan wb none := by
    unfold NikeTemplateManager.sheetsToScan
    dsimp only
    rw [if_neg hcond]
  refine ⟨?_, ?_, ?_⟩
  · unfold NikeTemplateManager.create_filled_template
    rw [hp]
  · unfold NikeTemplateManager.create_filled_template
    rfl
  · unfold NikeTemplateManager.scan_template_placeholders
    rw [hsc]

theorem missing_sheet_name_falls_back_witness :
    "Missing" ∉ sheetnames [("Data", [[some "d"]]), ("Form", [[some "x"]])] ∧
    (NikeTemplateManager.create_filled_template
        [("Data", [[some "d"]]), ("Form", [[some "x"]])] (fun _ => none) (some "Missing") =
      NikeTemplateManager.create_filled_template
        [("Data", [[some "d"]]), ("Form", [[some "x"]])] (fun _ => none) none ∧
    (NikeTemplateManager.create_filled_template
        [("Data", [[some "d"]]), ("Form", [[some "x"]])] (fun _ => none) (some "Missing")).2.2 = true ∧
    NikeTemplateManager.scan_template_placeholders
        [("Data", [[some "d"]]), ("Form", [[some "x"]])] (some "Missing") =
      NikeTemplateManager.scan_template_placeholders
        [("Data", [[some "d"]]), ("Form", [[some "x"]])] none) :=
  ⟨by decide,
   missing_sheet_name_falls_back [("Data", [[some "d"]]), ("Form", [[some "x"]])]
     (fun _ => none) "Missing" (by decide)⟩

/-! ### Field Rule Extractor accumulation (C1, C2) -/

theorem pyOr_assoc (a b c : String) : pyOr (pyOr a b) c = pyOr a (pyOr b c) := by
  unfold pyOr
  split_ifs <;> simp_all

theorem pyOr_empty_left (b : String) : pyOr "" b = b := by
  simp [pyOr]

theorem pyOr_empty_right (a : String) : pyOr a "" = a := by
  unfold pyOr
  split_ifs <;> simp_all

/-- Complete characterization of the page fold of `parse_pl`: the two
candidate accumulators append in discovery order, the PO fields are
untouched by the loop, `Invoice Number`, `Date` and `Marks` take the
last page result, and the `or`-guarded fields keep the first non-empty
page result. -/
theorem foldl_processPage (pages : List PageScan) : ∀ st : PLState,
    (pages.foldl processPage st).refpoHits = st.refpoHits ++ refpoAll pages ∧
    (pages.foldl processPage st).poHits = st.poHits ++ poAll pages ∧
    (pages.foldl processPage st).row.po = st.row.po ∧
    (pages.foldl processPage st).row.referencePO = st.row.referencePO ∧
    (pages.foldl processPage st).row.invoiceNumber =
      lastSome PageScan.invoiceMatch pyNorm pages st.row.invoiceNumber ∧
    (pages.foldl processPage st).row.date =
      lastSome PageScan.dateMatch to_dmy pages st.row.date ∧
    (pages.foldl processPage st).row.marks = lastMarks pages st.row.marks ∧
    (pages.foldl processPage st).row.itemSeq =
      pyOr st.row.itemSeq (firstNonEmpty PageScan.itemSeq pages) ∧
    (pages.foldl processPage st).row.material =
      pyOr st.row.material (firstNonEmpty PageScan.material pages) ∧
    (pages.foldl processPage st).row.desc =
      pyOr st.row.desc (firstNonEmpty PageScan.desc pages) ∧
    (pages.foldl processPage st).row.custShip =
      pyOr st.row.custShip (firstNonEmpty PageScan.custShip pages) ∧
    (pages.foldl processPage st).row.plant =
      pyOr st.row.plant (firstNonEmpty PageScan.plant pages) ∧
    (pages.foldl processPage st).row.gross =
      pyOr st.row.gross (firstNonEmpty PageScan.gross pages) ∧
    (pages.foldl processPage st).row.cartons =
      pyOr st.row.cartons (firstNonEmpty PageScan.cartons pages) ∧
    (pages.foldl processPage st).row.units =
      pyOr st.row.units (firstNonEmpty PageScan.units pages) := by
  induction pages with
  | nil =>
    intro st
    simp [refpoAll, poAll, lastSome, lastMarks, firstNonEmpty, pyOr_empty_right]
  | cons p ps ih =>
    intro st
    simp only [List.foldl_cons]
    obtain ⟨h1, h2, h3, h4, h5, h6, h7, h8, h9, h10, h11, h12, h13, h14, h15⟩ :=
      ih (processPage st p)
    refine ⟨?_, ?_, ?_, ?_, ?_, ?_, ?_, ?_, ?_, ?_, ?_, ?_, ?_, ?_, ?_⟩
    · rw [h1]; simp [processPage, refpoAll, List.append_assoc]
    · rw [h2]; simp [processPage, poAll, List.append_assoc]
    · rw [h3]; rfl
    · rw [h4]; rfl
    · rw [h5]; rfl
    · rw [h6]; rfl
    · rw [h7]; rfl
    · rw [h8]
      exact pyOr_assoc st.row.itemSeq p.itemSeq (firstNonEmpty PageScan.itemSeq ps)
    · rw [h9]
      exact pyOr_assoc st.row.material p.material (firstNonEmpty PageScan.material ps)
    · rw [h10]
      exact pyOr_assoc st.row.desc p.desc (firstNonEmpty PageScan.desc ps)
    · rw [h11]
      exact pyOr_assoc st.row.custShip p.custShip (firstNonEmpty PageScan.custShip ps)
    · rw [h12]
      exact pyOr_assoc st.row.plant p.plant (firstNonEmpty PageScan.plant ps)
    · rw [h13]
      exact pyOr_assoc st.row.gross p.gross (firstNonEmpty PageScan.gross ps)
    · rw [h14]
      exact pyOr_assoc st.row.cartons p.cartons (firstNonEmpty PageScan.cartons ps)
    · rw [h15]
      exact pyOr_assoc st.row.units p.units (firstNonEmpty PageScan.units ps)

/-- C2.  PO precedence: with the Reference-PO and generic-PO candidates
accumulated in discovery order over all pages (the generic ones also
harvested from each page's non-empty marks text), `Reference PO#` is the
first Reference-PO candidate when any exists, else the first generic-PO
candidate, and `PO` is the first generic-PO candidate; both are empty
when their lists are. -/
theorem parse_pl_po_precedence (pages : List PageScan) :
    (parse_pl pages).referencePO =
      (if refpoAll pages = [] then (poAll pages).headD "" else (refpoAll pages).headD "") ∧
    (parse_pl pages).po = (poAll pages).headD "" := by
  obtain ⟨h1, h2, h3, h4, -⟩ := foldl_processPage pages ⟨emptyRow, [], []⟩
  unfold parse_pl
  simp only [List.nil_append] at h1 h2
  by_cases hr : refpoAll pages = [] <;> by_cases hp : poAll pages = [] <;>
    simp_all [emptyRow]

/-- C1, amended.  Cross-page accumulation of `parse_pl`: the
`or`-guarded fields (`Item Seq.`, `Material`, `Desc`,
`Customer Ship To #`, `Plant` and the three totals) keep the first
non-empty value across pages and are never overwritten once set, but
`Invoice Number` and `Date` are reassigned by **every** later page whose
pattern matches, and `Marks` by every later page with non-empty
extracted marks — for those three the last page wins, not the first
(the PO fields follow the separate candidate-list precedence). -/
theorem parse_pl_field_accumulation (pages : List PageScan) :
    (parse_pl pages).invoiceNumber = lastSome PageScan.invoiceMatch pyNorm pages "" ∧
    (parse_pl pages).date = lastSome PageScan.dateMatch to_dmy pages "" ∧
    (parse_pl pages).marks = lastMarks pages "" ∧
    (parse_pl pages).itemSeq = firstNonEmpty PageScan.itemSeq pages ∧
    (parse_pl pages).material = firstNonEmpty PageScan.material pages ∧
    (parse_pl pages).desc = firstNonEmpty PageScan.desc pages ∧
    (parse_pl pages).custShip = firstNonEmpty PageScan.custShip pages ∧
    (parse_pl pages).plant = firstNonEmpty PageScan.plant pages ∧
    (parse_pl pages).gross = firstNonEmpty PageScan.gross pages ∧
    (parse_pl pages).cartons = firstNonEmpty PageScan.cartons pages ∧
    (parse_pl pages).units = firstNonEmpty PageScan.units pages := by
  obtain ⟨h1, h2, h3, h4, h5, h6, h7, h8, h9, h10, h11, h12, h13, h14, h15⟩ :=
    foldl_processPage pages ⟨emptyRow, [], []⟩
  unfold parse_pl
  dsimp only
  split_ifs <;> simp_all [emptyRow, pyOr_empty_left]

/-- C1, counterexample.  A two-page document whose invoice pattern
matches `"A1"` on page 1 and `"A2"` on page 2: the field is set
(non-empty) from page 1, yet processing page 2 overwrites it. -/
theorem parse_pl_page1_invoice_overwritten :
    (parse_pl [pgC1a]).invoiceNumber = "A1" ∧
    (parse_pl [pgC1a, pgC1b]).invoiceNumber = "A2" ∧
    (parse_pl [pgC1a, pgC1b]).invoiceNumber ≠ (parse_pl [pgC1a]).invoiceNumber := by
  decide

/-! ### Unresolved-placeholder passthrough (C4) -/

theorem takeWhile_append_stop (p : Char → Bool) (l1 : List Char) (c : Char)
    (l2 : List Char) (hall : ∀ a ∈ l1, p a = true) (hc : p c = false) :
    (l1 ++ c :: l2).takeWhile p = l1 := by
  induction l1 with
  | nil => simp [List.takeWhile_cons, hc]
  | cons x xs ih =>
    have hx : p x = true := hall x (List.mem_cons_self x xs)
    simp [List.takeWhile_cons, hx, ih (fun a ha => hall a (List.mem_cons_of_mem x ha))]

theorem placeholderSubAux_lit (o c : Char) (m : String → Option String)
    (l : List Char) (hl : o ∉ l) : ∀ (F : List Char) (fuel : Nat),
    l.length + F.length ≤ fuel →
    placeholderSubAux o c m fuel (l ++ F) =
      l ++ placeholderSubAux o c m (fuel - l.length) F := by
  induction l with
  | nil => intro F fuel _; simp
  | cons x xs ih =>
    intro F fuel hlen
    have hx : x ≠ o := fun h => hl (h ▸ List.mem_cons_self x xs)
    cases fuel with
    | zero => simp at hlen
    | succ f =>
      simp only [List.cons_append, placeholderSubAux, if_neg hx, List.append_eq]
      rw [ih (fun h => hl (List.mem_cons_of_mem x h)) F f
        (by simp only [List.length_cons] at hlen; omega)]
      simp only [List.length_cons]
      have heq : f + 1 - (xs.length + 1) = f - xs.length := by omega
      rw [heq]

theorem placeholderSubAux_ph (o c : Char) (m : String → Option String)
    (n : List Char) (hne : n ≠ []) (hc : c ∉ n) (F : List Char) (f : Nat) :
    placeholderSubAux o c m (f + 1) (o :: (n ++ c :: F)) =
      (match m (String.mk n) with
       | some v => v.data
       | none => o :: (n ++ [c])) ++ placeholderSubAux o c m f F := by
  have htake : (n ++ c :: F).takeWhile (fun ch => ch ≠ c) = n := by
    apply takeWhile_append_stop
    · intro a ha
      simp only [ne_eq, decide_eq_true_eq]
      exact fun h => hc (h ▸ ha)
    · simp
  simp only [placeholderSubAux, if_pos rfl, htake]
  rw [List.drop_left]
  have : n.isEmpty = false := by
    cases n with
    | nil => exact absurd rfl hne
    | cons a l => rfl
  simp [this]

theorem placeholderSubAux_segments (o c : Char) (m : String → Option String)
    (segs : List Seg) : ∀ (fuel : Nat), (segFlatten o c segs).length ≤ fuel →
    (∀ sg ∈ segs, segWF o c sg) →
    placeholderSubAux o c m fuel (segFlatten o c segs) = segRender o c m segs := by
  induction segs with
  | nil =>
    intro fuel _ _
    cases fuel <;> rfl
  | cons sg rest ih =>
    intro fuel hlen hwf
    have hwfsg := hwf sg (List.mem_cons_self sg rest)
    have hwfrest : ∀ s ∈ rest, segWF o c s := fun s hs => hwf s (List.mem_cons_of_mem sg hs)
    cases sg with
    | lit s =>
      have hol : o ∉ s.data := hwfsg
      simp only [segFlatten] at hlen ⊢
      simp only [List.length_append] at hlen
      rw [placeholderSubAux_lit o c m s.data hol (segFlatten o c rest) fuel hlen]
      rw [ih (fuel - s.data.length) (by omega) hwfrest]
      rfl
    | ph n =>
      obtain ⟨hne, hcn⟩ := hwfsg
      have hne' : n.data ≠ [] := fun h => hne (by
        cases n with
        | mk l => simp at h; simp [h])
      simp only [segFlatten] at hlen ⊢
      simp only [List.length_cons, List.length_append] at hlen
      cases fuel with
      | zero => omega
      | succ f =>
        rw [placeholderSubAux_ph o c m n.data hne' hcn (segFlatten o c rest) f]
        rw [ih f (by omega) hwfrest]
        rfl

/-- C4.  Unresolved-placeholder passthrough: for every cell text (viewed
as its segmentation into literal chunks and delimiter-wrapped
placeholders) and every data map, substitution replaces each placeholder
present in the map by the string form of its value and leaves each
placeholder absent from the map in the output exactly as the original
literal token — never blanked, never failing — for both the Nike `{}`
and the plain `[]` delimiter conventions. -/
theorem placeholder_passthrough (m : String → Option String) (segs : List Seg)
    (hn : ∀ sg ∈ segs, segWF '{' '}' sg) (hb : ∀ sg ∈ segs, segWF '[' ']' sg) :
    NikeTemplateManager._replace_placeholders_in_text
        (String.mk (segFlatten '{' '}' segs)) m =
      String.mk (segRender '{' '}' m segs) ∧
    TemplateManager._replace_placeholders_in_text
        (String.mk (segFlatten '[' ']' segs)) m =
      String.mk (segRender '[' ']' m segs) := by
  constructor
  · unfold NikeTemplateManager._replace_placeholders_in_text placeholderSub
    rw [placeholderSubAux_segments '{' '}' m segs _ (le_refl _) hn]
  · unfold TemplateManager._replace_placeholders_in_text placeholderSub
    rw [placeholderSubAux_segments '[' ']' m segs _ (le_refl _) hb]

theorem placeholder_passthrough_witness :
    (∀ sg ∈ [Seg.lit "a ", Seg.ph "Name", Seg.lit " b ", Seg.ph "Missing"],
      segWF '{' '}' sg) ∧
    (∀ sg ∈ [Seg.lit "a ", Seg.ph "Name", Seg.lit " b ", Seg.ph "Missing"],
      segWF '[' ']' sg) ∧
    (NikeTemplateManager._replace_placeholders_in_text
        (String.mk (segFlatten '{' '}'
          [Seg.lit "a ", Seg.ph "Name", Seg.lit " b ", Seg.ph "Missing"]))
        (fun n => if n = "Name" then some "X" else none) =
      String.mk (segRender '{' '}' (fun n => if n = "Name" then some "X" else none)
        [Seg.lit "a ", Seg.ph "Name", Seg.lit " b ", Seg.ph "Missing"]) ∧
    TemplateManager._replace_placeholders_in_text
        (String.mk (segFlatten '[' ']'
          [Seg.lit "a ", Seg.ph "Name", Seg.lit " b ", Seg.ph "Missing"]))
        (fun n => if n = "Name" then some "X" else none) =
      String.mk (segRender '[' ']' (fun n => if n = "Name" then some "X" else none)
        [Seg.lit "a ", Seg.ph "Name", Seg.lit " b ", Seg.ph "Missing"])) :=
  ⟨by decide, by decide,
   placeholder_passthrough (fun n => if n = "Name" then some "X" else none)
     [Seg.lit "a ", Seg.ph "Name", Seg.lit " b ", Seg.ph "Missing"]
     (by decide) (by decide)⟩

/-! ### Destination Resolver tie-break (C5) -/

theorem foldl_lastMatch (p : String → Bool) : ∀ (l : List String) (acc : String),
    l.foldl (fun acc name => if p name then name else acc) acc =
      (l.filter p).getLastD acc := by
  intro l
  induction l with
  | nil => intro acc; rfl
  | cons x xs ih =>
    intro acc
    rw [List.foldl_cons, ih, List.filter_cons]
    by_cases hx : p x = true
    · rw [if_pos hx, if_pos hx, List.getLastD_cons]
    · rw [if_neg hx, if_neg hx]

theorem getLastD_mem_of_ne_nil {α : Type} (l : List α) (d : α) (h : l ≠ []) :
    l.getLastD d ∈ l := by
  induction l generalizing d with
  | nil => exact absurd rfl h
  | cons a as ih =>
    rw [List.getLastD_cons]
    cases as with
    | nil => simp [List.getLastD]
    | cons b bs => exact List.mem_cons_of_mem a (ih a (by simp))

/-- C5.  Destination Resolver tie-break: on marks text restricted to the
portion preceding the literal "Country Of Origin" label, the resolver
returns the normalized **last** entry of the fixed `COUNTRY_SIMPLE` list
that word-matches the text (case-insensitively) — so when two known
countries both occur, the one later in the list wins even if it occurs
earlier in the text. -/
theorem dest_last_list_match_wins (marks : String) (h1 : marks ≠ "")
    (h2 : COUNTRY_SIMPLE.filter (fun n => reWordSearch n (preOfMarks marks)) ≠ []) :
    dest_from_marks marks =
      clean_long_country_name
        ((COUNTRY_SIMPLE.filter (fun n => reWordSearch n (preOfMarks marks))).getLastD "") := by
  unfold dest_from_marks
  rw [if_neg h1]
  dsimp only
  rw [foldl_lastMatch]
  have hmem := getLastD_mem_of_ne_nil _ "" h2
  have hne : (COUNTRY_SIMPLE.filter (fun n => reWordSearch n (preOfMarks marks))).getLastD "" ≠ "" := by
    have hcs := List.mem_of_mem_filter hmem
    have hall : ∀ x ∈ COUNTRY_SIMPLE, x ≠ "" := by decide
    exact hall _ hcs
  rw [if_pos hne]

theorem dest_last_list_match_wins_witness :
    ("Vietnam x Canada" : String) ≠ "" ∧
    COUNTRY_SIMPLE.filter (fun n => reWordSearch n (preOfMarks "Vietnam x Canada")) ≠ [] ∧
    dest_from_marks "Vietnam x Canada" =
      clean_long_country_name
        ((COUNTRY_SIMPLE.filter
          (fun n => reWordSearch n (preOfMarks "Vietnam x Canada"))).getLastD "") :=
  ⟨by decide, by decide, dest_last_list_match_wins "Vietnam x Canada" (by decide) (by decide)⟩

/-! ### Row-Append Writer frame property (C9) -/

theorem setc_frame (ws : Ws) (r col : Nat) (v : Option String) (r2 c2 : Nat)
    (h : NikeTemplateManager.emptyish v ∨ c2 ≠ col) :
    (NikeTemplateManager.setc ws r col v).cells r2 c2 = ws.cells r2 c2 := by
  unfold NikeTemplateManager.setc
  cases v with
  | none => rfl
  | some s =>
    dsimp only
    by_cases hs : s = ""
    · rw [if_neg (by simp [hs])]
    · rw [if_pos hs]
      rcases h with he | hc
      · rcases he with he | he
        · exact absurd he (by simp)
        · exact absurd (Option.some.inj he) hs
      · show (if r2 = r ∧ c2 = col then some s else ws.cells r2 c2) = ws.cells r2 c2
        rw [if_neg (fun hand => hc hand.2)]

theorem find_or_append_frame (ws : Ws) (invCol startRow : Nat) (invoice : String)
    (r2 c2 : Nat) (h : c2 ≠ invCol) :
    (NikeTemplateManager.find_or_append_row ws invCol startRow invoice).1.cells r2 c2 =
      ws.cells r2 c2 := by
  unfold NikeTemplateManager.find_or_append_row
  dsimp only
  split
  · rfl
  · show (if r2 = _ ∧ c2 = invCol then _ else ws.cells r2 c2) = ws.cells r2 c2
    rw [if_neg (fun hand => h hand.2)]
  · show (if r2 = _ ∧ c2 = invCol then _ else ws.cells r2 c2) = ws.cells r2 c2
    rw [if_neg (fun hand => h hand.2)]

theorem descStage_frame (w : Ws) (r col : Nat) (asiDesc : String) (r2 c2 : Nat)
    (h : NikeTemplateManager.emptyish (if asiDesc ≠ "" then some asiDesc else none) ∨
      c2 ≠ col) :
    (if asiDesc ≠ "" then NikeTemplateManager.setc w r col (some asiDesc) else w).cells r2 c2 =
      w.cells r2 c2 := by
  by_cases hd : asiDesc ≠ ""
  · rw [if_pos hd]
    rw [if_pos hd] at h
    exact setc_frame w r col (some asiDesc) r2 c2 h
  · rw [if_neg hd]

theorem destStage_frame (w : Ws) (r col : Nat) (destOverride : Option String)
    (plRow : String → Option String) (r2 c2 : Nat)
    (h : NikeTemplateManager.emptyish
        (if pyTruthyOpt destOverride then destOverride
         else if pyTruthyOpt (plRow "DEST") then plRow "DEST" else none) ∨ c2 ≠ col) :
    (if pyTruthyOpt destOverride then NikeTemplateManager.setc w r col destOverride
     else if pyTruthyOpt (plRow "DEST") then NikeTemplateManager.setc w r col (plRow "DEST")
     else w).cells r2 c2 = w.cells r2 c2 := by
  by_cases hA : pyTruthyOpt destOverride = true
  · rw [if_pos hA]
    rw [if_pos hA] at h
    exact setc_frame w r col destOverride r2 c2 h
  · rw [if_neg hA]
    rw [if_neg hA] at h
    by_cases hB : pyTruthyOpt (plRow "DEST") = true
    · rw [if_pos hB]
      rw [if_pos hB] at h
      exact setc_frame w r col (plRow "DEST") r2 c2 h
    · rw [if_neg hB]

/-- C9, amended.  Row-Append Writer frame property: a field value is
written into its mapped column only when it is neither `None` nor empty,
and for every field whose value is empty or absent the pre-existing
content of that cell in the target row is unchanged — **provided** the
field's column is not also the mapped column of the invoice identifier
(written during row resolution) or of another field carrying a non-empty
value; when two fields share a column, the non-empty one can overwrite
the cell of the empty one. -/
theorem fill_excel_row_frame (ws : Ws) (cols : NField → Nat) (startRow : Nat)
    (inv : String) (plRow : String → Option String) (asiDesc : String)
    (destOverride : Option String) (k : NField)
    (hempty : NikeTemplateManager.emptyish
      (NikeTemplateManager.fieldWrite plRow asiDesc destOverride k))
    (hinv : cols NField.inv ≠ cols k)
    (hdistinct : ∀ k' : NField, k' ≠ k →
      ¬ NikeTemplateManager.emptyish
          (NikeTemplateManager.fieldWrite plRow asiDesc destOverride k') →
        cols k' ≠ cols k) :
    (NikeTemplateManager.fill_excel_row ws cols startRow inv plRow asiDesc destOverride).1.cells
        (NikeTemplateManager.fill_excel_row ws cols startRow inv plRow asiDesc destOverride).2
        (cols k) =
      ws.cells
        (NikeTemplateManager.fill_excel_row ws cols startRow inv plRow asiDesc destOverride).2
        (cols k) := by
  have hstep : ∀ k' : NField,
      NikeTemplateManager.emptyish
        (NikeTemplateManager.fieldWrite plRow asiDesc destOverride k') ∨
      cols k ≠ cols k' := by
    intro k'
    by_cases hk : k' = k
    · subst hk
      exact Or.inl hempty
    · by_cases he : NikeTemplateManager.emptyish
        (NikeTemplateManager.fieldWrite plRow asiDesc destOverride k')
      · exact Or.inl he
      · exact Or.inr (Ne.symm (hdistinct k' hk he))
  have hdate : NikeTemplateManager.emptyish (plRow "Date") ∨ cols k ≠ cols NField.date :=
    hstep NField.date
  have hpo : NikeTemplateManager.emptyish (plRow "PO") ∨ cols k ≠ cols NField.po :=
    hstep NField.po
  have hrefpo : NikeTemplateManager.emptyish (plRow "Reference PO#") ∨
      cols k ≠ cols NField.refpo := hstep NField.refpo
  have hitem : NikeTemplateManager.emptyish (plRow "Item Seq.") ∨
      cols k ≠ cols NField.itemseq := hstep NField.itemseq
  have hmat : NikeTemplateManager.emptyish (plRow "Material") ∨
      cols k ≠ cols NField.material := hstep NField.material
  have hdsc : NikeTemplateManager.emptyish (plRow "Desc") ∨ cols k ≠ cols NField.desc :=
    hstep NField.desc
  have hcust : NikeTemplateManager.emptyish (plRow "Customer Ship To #") ∨
      cols k ≠ cols NField.custship := hstep NField.custship
  have hplant : NikeTemplateManager.emptyish (plRow "Plant") ∨ cols k ≠ cols NField.plant :=
    hstep NField.plant
  have hgross : NikeTemplateManager.emptyish (plRow "Total Gross Kgs") ∨
      cols k ≠ cols NField.gross := hstep NField.gross
  have hcart : NikeTemplateManager.emptyish (plRow "Total Cartons") ∨
      cols k ≠ cols NField.cartons := hstep NField.cartons
  have hunits : NikeTemplateManager.emptyish (plRow "Total Units") ∨
      cols k ≠ cols NField.units := hstep NField.units
  have hmarks : NikeTemplateManager.emptyish (plRow "Marks") ∨ cols k ≠ cols NField.marks :=
    hstep NField.marks
  have hdescr : NikeTemplateManager.emptyish
      (if asiDesc ≠ "" then some asiDesc else none) ∨ cols k ≠ cols NField.description :=
    hstep NField.description
  have hdest : NikeTemplateManager.emptyish
      (if pyTruthyOpt destOverride then destOverride
       else if pyTruthyOpt (plRow "DEST") then plRow "DEST" else none) ∨
      cols k ≠ cols NField.dest := hstep NField.dest
  unfold NikeTemplateManager.fill_excel_row
  dsimp only
  rw [descStage_frame _ _ _ _ _ _ hdescr]
  rw [destStage_frame _ _ _ _ _ _ _ hdest]
  rw [setc_frame _ _ _ _ _ _ hmarks]
  rw [setc_frame _ _ _ _ _ _ hunits]
  rw [setc_frame _ _ _ _ _ _ hcart]
  rw [setc_frame _ _ _ _ _ _ hgross]
  rw [setc_frame _ _ _ _ _ _ hplant]
  rw [setc_frame _ _ _ _ _ _ hcust]
  rw [setc_frame _ _ _ _ _ _ hdsc]
  rw [setc_frame _ _ _ _ _ _ hmat]
  rw [setc_frame _ _ _ _ _ _ hitem]
  rw [setc_frame _ _ _ _ _ _ hrefpo]
  rw [setc_frame _ _ _ _ _ _ hpo]
  rw [setc_frame _ _ _ _ _ _ hdate]
  rw [find_or_append_frame _ _ _ _ _ _ (Ne.symm hinv)]

theorem fill_excel_row_frame_witness :
    NikeTemplateManager.emptyish
      (NikeTemplateManager.fieldWrite plC9w "" none NField.date) ∧
    colsC9w NField.inv ≠ colsC9w NField.date ∧
    (∀ k' : NField, k' ≠ NField.date →
      ¬ NikeTemplateManager.emptyish (NikeTemplateManager.fieldWrite plC9w "" none k') →
        colsC9w k' ≠ colsC9w NField.date) ∧
    (NikeTemplateManager.fill_excel_row wsC9w colsC9w 8 "A123" plC9w "" none).1.cells
        (NikeTemplateManager.fill_excel_row wsC9w colsC9w 8 "A123" plC9w "" none).2
        (colsC9w NField.date) =
      wsC9w.cells
        (NikeTemplateManager.fill_excel_row wsC9w colsC9w 8 "A123" plC9w "" none).2
        (colsC9w NField.date) :=
  ⟨by decide, by decide, by decide,
   fill_excel_row_frame wsC9w colsC9w 8 "A123" plC9w "" none NField.date
     (by decide) (by decide) (by decide)⟩

/-- C9, counterexample.  With `marks` and `itemseq` mapped to the same
column 5, an empty `Marks` value does not protect its cell: the
non-empty `Item Seq.` value overwrites the pre-existing `"OLD"` content
of cell (8, 5) even though the `marks` field is empty. -/
theorem fill_row_empty_field_cell_overwritten :
    plC9 "Marks" = some "" ∧
    wsC9.cells 8 (colsC9 NField.marks) = some "OLD" ∧
    (NikeTemplateManager.fill_excel_row wsC9 colsC9 8 "A123" plC9 "" none).2 = 8 ∧
    (NikeTemplateManager.fill_excel_row wsC9 colsC9 8 "A123" plC9 "" none).1.cells 8
        (colsC9 NField.marks) = some "X" := by
  decide

/-! ### Line Grouper partition and ordering (C6) -/

theorem groupGo_flatten_perm (tol : ℤ) :
    ∀ (ws cur : List Tok) (cury : ℤ),
      (groupGo tol ws cur cury).flatten.Perm (cur ++ ws) := by
  intro ws
  induction ws with
  | nil =>
    intro cur cury
    simp only [groupGo, List.flatten, List.append_nil]
    simpa using List.perm_insertionSort tokXLE cur
  | cons w ws ih =>
    intro cur cury
    by_cases h : |pyRound w.top - cury| ≤ tol
    · simp only [groupGo, if_pos h]
      have := ih (cur ++ [w]) cury
      rwa [List.append_assoc] at this
    · simp only [groupGo, if_neg h, List.flatten_cons]
      exact List.Perm.append (List.perm_insertionSort tokXLE cur) (ih [w] (pyRound w.top))

theorem groupGo_sortedX (tol : ℤ) :
    ∀ (ws cur : List Tok) (cury : ℤ) (l : List Tok),
      l ∈ groupGo tol ws cur cury → l.Sorted tokXLE := by
  intro ws
  induction ws with
  | nil =>
    intro cur cury l hl
    simp only [groupGo, List.mem_singleton] at hl
    subst hl
    exact List.sorted_insertionSort tokXLE cur
  | cons w ws ih =>
    intro cur cury l hl
    by_cases h : |pyRound w.top - cury| ≤ tol
    · rw [groupGo, if_pos h] at hl
      exact ih (cur ++ [w]) cury l hl
    · rw [groupGo, if_neg h] at hl
      rcases List.mem_cons.mp hl with rfl | hl'
      · exact List.sorted_insertionSort tokXLE cur
      · exact ih [w] (pyRound w.top) l hl'

theorem groupGo_pairwise (tol : ℤ) (htol : 0 ≤ tol) :
    ∀ (ws cur : List Tok) (cury : ℤ),
      (cur ++ ws).Sorted (fun a b => pyRound a.top ≤ pyRound b.top) →
      (∀ t ∈ cur, cury ≤ pyRound t.top ∧ pyRound t.top ≤ cury + tol) →
      (∀ t ∈ ws, cury ≤ pyRound t.top) →
      (groupGo tol ws cur cury).Pairwise
        (fun l1 l2 => ∀ a ∈ l1, ∀ b ∈ l2, pyRound a.top ≤ pyRound b.top) := by
  intro ws
  induction ws with
  | nil =>
    intro cur cury _ _ _
    simp [groupGo]
  | cons w ws ih =>
    intro cur cury hsorted hcur hlo
    have hwy : cury ≤ pyRound w.top := hlo w (List.mem_cons_self w ws)
    have hsorted2 : (w :: ws).Pairwise (fun a b => pyRound a.top ≤ pyRound b.top) :=
      hsorted.sublist (List.sublist_append_right cur (w :: ws))
    by_cases h : |pyRound w.top - cury| ≤ tol
    · simp only [groupGo, if_pos h]
      have hstep : pyRound w.top ≤ cury + tol := by
        have h2 := (abs_le.mp h).2
        omega
      apply ih (cur ++ [w]) cury
      · rw [List.append_assoc]
        exact hsorted
      · intro t ht
        rcases List.mem_append.mp ht with h1 | h2
        · exact hcur t h1
        · have heq : t = w := by simpa using h2
          subst heq
          exact ⟨hwy, hstep⟩
      · intro t ht
        exact hlo t (List.mem_cons_of_mem w ht)
    · simp only [groupGo, if_neg h]
      have hygt : cury + tol < pyRound w.top := by
        rw [abs_of_nonneg (by omega)] at h
        omega
      rw [List.pairwise_cons]
      constructor
      · intro l' hl' a ha b hb
        have ha' : a ∈ cur := (List.perm_insertionSort tokXLE cur).subset ha
        have hb' : b ∈ [w] ++ ws :=
          (groupGo_flatten_perm tol ws [w] (pyRound w.top)).subset
            (List.mem_flatten.mpr ⟨l', hl', hb⟩)
        have hya : pyRound a.top ≤ cury + tol := (hcur a ha').2
        rcases (by simpa using hb' : b = w ∨ b ∈ ws) with rfl | hbws
        · omega
        · have hwb : pyRound w.top ≤ pyRound b.top :=
            (List.pairwise_cons.mp hsorted2).1 b hbws
          omega
      · apply ih [w] (pyRound w.top)
        · exact hsorted2
        · intro t ht
          have heq : t = w := by simpa using ht
          subst heq
          exact ⟨le_refl _, by omega⟩
        · intro t ht
          exact (List.pairwise_cons.mp hsorted2).1 t ht

/-- C6.  Line Grouper partition and ordering: every token of the input
appears in exactly one line of the output (the flattened output is a
permutation of the input), tokens within a line are ordered by
non-decreasing left-x, lines come in non-decreasing vertical order
(every token of an earlier line has rounded top at most that of every
token of a later line), and the empty token set yields the empty
sequence. -/
theorem group_lines_partition_and_order (words : List Tok) (tol : ℤ) (htol : 0 ≤ tol) :
    ((group_lines words tol).flatten).Perm words ∧
    (∀ l ∈ group_lines words tol, l.Sorted tokXLE) ∧
    (group_lines words tol).Pairwise
      (fun l1 l2 => ∀ a ∈ l1, ∀ b ∈ l2, pyRound a.top ≤ pyRound b.top) ∧
    group_lines [] tol = [] := by
  refine ⟨?_, ?_, ?_, rfl⟩
  · unfold group_lines
    cases h : sortTokens words with
    | nil =>
      have hp : (sortTokens words).Perm words := List.perm_insertionSort tokKeyLE words
      rw [h] at hp
      simpa using hp
    | cons w ws =>
      refine (groupGo_flatten_perm tol ws [w] (pyRound w.top)).trans ?_
      show (w :: ws).Perm words
      rw [← h]
      exact List.perm_insertionSort tokKeyLE words
  · intro l hl
    unfold group_lines at hl
    cases h : sortTokens words with
    | nil => rw [h] at hl; simp at hl
    | cons w ws =>
      rw [h] at hl
      exact groupGo_sortedX tol ws [w] (pyRound w.top) l hl
  · unfold group_lines
    cases h : sortTokens words with
    | nil => simp
    | cons w ws =>
      have hs : (w :: ws).Sorted tokKeyLE := by
        have := List.sorted_insertionSort tokKeyLE words
        rw [show List.insertionSort tokKeyLE words = sortTokens words from rfl, h] at this
        exact this
      have hsorted : (w :: ws).Pairwise (fun a b => pyRound a.top ≤ pyRound b.top) := by
        refine hs.imp ?_
        intro a b hab
        rcases hab with hlt | ⟨heq, _⟩
        · exact le_of_lt hlt
        · exact le_of_eq heq
      apply groupGo_pairwise tol htol ws [w] (pyRound w.top)
      · exact hsorted
      · intro t ht
        have heq : t = w := by simpa using ht
        subst heq
        exact ⟨le_refl _, by omega⟩
      · intro t ht
        exact (List.pairwise_cons.mp hsorted).1 t ht

theorem group_lines_partition_and_order_witness :
    ((0 : ℤ) ≤ 2) ∧
    (((group_lines [⟨"b", 7, 10⟩, ⟨"a", 2, 11⟩, ⟨"c", 4, 20⟩] 2).flatten).Perm
        [⟨"b", 7, 10⟩, ⟨"a", 2, 11⟩, ⟨"c", 4, 20⟩] ∧
      (∀ l ∈ group_lines [⟨"b", 7, 10⟩, ⟨"a", 2, 11⟩, ⟨"c", 4, 20⟩] 2,
        l.Sorted tokXLE) ∧
      (group_lines [⟨"b", 7, 10⟩, ⟨"a", 2, 11⟩, ⟨"c", 4, 20⟩] 2).Pairwise
        (fun l1 l2 => ∀ a ∈ l1, ∀ b ∈ l2, pyRound a.top ≤ pyRound b.top) ∧
      group_lines [] 2 = []) :=
  ⟨by decide,
   group_lines_partition_and_order [⟨"b", 7, 10⟩, ⟨"a", 2, 11⟩, ⟨"c", 4, 20⟩] 2 (by decide)⟩

/-! ### Template round-trip (C3) -/

/-- C3, code bug.  On a workbook whose one sheet holds the single
placeholder `{Name}` and a data map covering it, the Nike
format-preserving fill performs **zero** replacements (its loop calls
the non-existent method `self.replace_placeholders_in_text`; the
`AttributeError` is swallowed), so rescanning the "filled" result still
finds `["Name"]` — the round-trip fails on the Nike path, while the
plain `TemplateManager` path at the analogous input does empty the
placeholder set. -/
theorem nike_round_trip_broken :
    NikeTemplateManager.scan_template_placeholders
      [("Sheet1", [[some "\x7bName\x7d"]])] none = ["Name"] ∧
    (NikeTemplateManager.create_filled_template [("Sheet1", [[some "\x7bName\x7d"]])]
        (fun n => if n = "Name" then some "X" else none) none).1 =
      [("Sheet1", [[some "\x7bName\x7d"]])] ∧
    NikeTemplateManager.scan_template_placeholders
      (NikeTemplateManager.create_filled_template [("Sheet1", [[some "\x7bName\x7d"]])]
        (fun n => if n = "Name" then some "X" else none) none).1 none = ["Name"] ∧
    (TemplateManager.create_filled_template [("Sheet1", [[some "[Name]"]])]
        (fun n => if n = "Name" then some "X" else none)).1 =
      [("Sheet1", [[some "X"]])] ∧
    TemplateManager.scan_template_placeholders
      (TemplateManager.create_filled_template [("Sheet1", [[some "[Name]"]])]
        (fun n => if n = "Name" then some "X" else none)).1 = [] := by
  decide

end NikeExport
